import Mathlib

/-!
Verification of the ledger-ingestion and lot-matching core of the
schwab-to-discord repository, as a shallow embedding in Lean 4.

Money amounts and quantities are modelled as rationals (`ℚ`); the SQLite
tables are modelled as lists of rows; timestamps are plain strings
ordered lexicographically (matching SQLite TEXT comparison).
-/

namespace CostBasis

/-- One row of the `cost_basis_lots` table (src/app/db/cost_basis_db.py). -/
structure Lot where
  lot_id : Nat
  order_id : Int
  symbol : String
  underlying : String
  quantity : ℚ
  remaining_qty : ℚ
  avg_cost : ℚ
  entered_time : String
deriving DecidableEq, Repr

/-- One row of the `lot_matches` table. -/
structure LotMatch where
  match_id : Nat
  sell_order_id : Int
  lot_id : Nat
  quantity : ℚ
  cost_basis : ℚ
  sell_price : ℚ
  gain_pct : ℚ
  gain_amount : ℚ
deriving DecidableEq, Repr

/-- One row of the `unmatched_sells` table (primary key `sell_order_id`). -/
structure UnmatchedSell where
  sell_order_id : Int
  symbol : String
  quantity : ℚ
  sell_price : ℚ
deriving DecidableEq, Repr

/-- The cost-basis database state: the three tables plus the autoincrement
counters for `lot_id` and `match_id`. -/
structure DB where
  lots : List Lot
  lot_matches : List LotMatch
  unmatched : List UnmatchedSell
  next_lot_id : Nat
  next_match_id : Nat
deriving DecidableEq, Repr

def initDB : DB := ⟨[], [], [], 1, 1⟩

/-- `check_buy_already_recorded`: COUNT(*) of lots with this order id > 0. -/
def check_buy_already_recorded (db : DB) (order_id : Int) : Bool :=
  db.lots.any (fun l => l.order_id == order_id)

/-- `create_cost_basis_lot`: INSERT OR IGNORE keyed on the UNIQUE
`order_id` column; `remaining_qty` starts equal to `quantity`. -/
def create_cost_basis_lot (db : DB) (order_id : Int) (symbol underlying : String)
    (quantity avg_cost : ℚ) (entered_time : String) : DB :=
  if db.lots.any (fun l => l.order_id == order_id) then db
  else
    { db with
      lots := db.lots ++
        [⟨db.next_lot_id, order_id, symbol, underlying, quantity, quantity,
          avg_cost, entered_time⟩],
      next_lot_id := db.next_lot_id + 1 }

/-- Lexicographic comparison of character lists, mirroring SQLite's
byte-wise TEXT comparison (the strings involved are ASCII timestamps). -/
def charsLt : List Char → List Char → Bool
  | [], [] => false
  | [], _ :: _ => true
  | _ :: _, [] => false
  | a :: as, b :: bs =>
    if a.val < b.val then true
    else if b.val < a.val then false
    else charsLt as bs

/-- SQLite TEXT `<` on strings. -/
def textLt (a b : String) : Bool := charsLt a.toList b.toList

/-- SQLite `ORDER BY entered_time DESC`: newest entered time first. -/
def lifoOrder (a b : Lot) : Prop := textLt a.entered_time b.entered_time = false

instance : DecidableRel lifoOrder := fun a b =>
  inferInstanceAs (Decidable (textLt a.entered_time b.entered_time = false))

/-- `get_open_lots_lifo`: lots with this exact symbol and
`remaining_qty > 0`, ordered by `entered_time` descending. -/
def get_open_lots_lifo (db : DB) (symbol : String) : List Lot :=
  List.insertionSort lifoOrder
    (db.lots.filter (fun l => l.symbol == symbol && decide (0 < l.remaining_qty)))

/-- The effect of the `reduce_lot_quantity` UPDATE on one row. -/
def updRemaining (lot_id : Nat) (sold_qty : ℚ) (l : Lot) : Lot :=
  if l.lot_id == lot_id then { l with remaining_qty := l.remaining_qty - sold_qty }
  else l

/-- `reduce_lot_quantity`: UPDATE subtracting `sold_qty` from the lot row. -/
def reduce_lot_quantity (db : DB) (lot_id : Nat) (sold_qty : ℚ) : DB :=
  { db with lots := db.lots.map (updRemaining lot_id sold_qty) }

/-- `record_lot_match`: INSERT of one match row. -/
def record_lot_match (db : DB) (sell_order_id : Int) (lot_id : Nat)
    (quantity cost_basis sell_price gain_pct gain_amount : ℚ) : DB :=
  { db with
    lot_matches := db.lot_matches ++
      [⟨db.next_match_id, sell_order_id, lot_id, quantity, cost_basis,
        sell_price, gain_pct, gain_amount⟩],
    next_match_id := db.next_match_id + 1 }

/-- The `lot_matches` rows for one sell order id. -/
def matchesForSell (db : DB) (sell_order_id : Int) : List LotMatch :=
  db.lot_matches.filter (fun m => m.sell_order_id == sell_order_id)

/-- `get_avg_gain_for_sell`: `SUM(quantity * gain_pct) / SUM(quantity)`.
With no rows the SUMs are NULL; with `SUM(quantity) = 0` SQLite division
yields NULL; both surface as `none`. -/
def get_avg_gain_for_sell (db : DB) (sell_order_id : Int) : Option ℚ :=
  let ms := matchesForSell db sell_order_id
  if ms.isEmpty then none
  else
    let den := (ms.map (fun m => m.quantity)).sum
    if den = 0 then none
    else some ((ms.map (fun m => m.quantity * m.gain_pct)).sum / den)

/-- `check_sell_already_matched`: COUNT(*) of matches for the order > 0. -/
def check_sell_already_matched (db : DB) (sell_order_id : Int) : Bool :=
  !(matchesForSell db sell_order_id).isEmpty

/-- `check_sell_unmatched`: COUNT(*) of `unmatched_sells` rows > 0. -/
def check_sell_unmatched (db : DB) (sell_order_id : Int) : Bool :=
  db.unmatched.any (fun u => u.sell_order_id == sell_order_id)

/-- `record_unmatched_sell`: INSERT OR IGNORE on the `sell_order_id` PK. -/
def record_unmatched_sell (db : DB) (sell_order_id : Int) (symbol : String)
    (quantity sell_price : ℚ) : DB :=
  if db.unmatched.any (fun u => u.sell_order_id == sell_order_id) then db
  else { db with unmatched := db.unmatched ++ [⟨sell_order_id, symbol, quantity, sell_price⟩] }

/-- `GainResult` dataclass (src/app/domain/cost_basis.py). -/
structure GainResult where
  avg_gain_pct : ℚ
  total_gain_amount : ℚ
  lots_matched : Nat
deriving DecidableEq, Repr

/-- `extract_underlying`: first whitespace-separated token when the symbol
contains a space, else the symbol itself. -/
def extract_underlying (symbol : String) : String :=
  if symbol.contains ' ' then
    (((symbol.splitOn " ").filter (fun t => t != "")).headD "")
  else symbol

/-- `process_buy_order` (src/app/domain/cost_basis.py). -/
def process_buy_order (db : DB) (order_id : Int) (symbol : String)
    (filled_quantity price : ℚ) (entered_time : String) : Bool × DB :=
  if check_buy_already_recorded db order_id then (false, db)
  else
    (true, create_cost_basis_lot db order_id symbol (extract_underlying symbol)
      filled_quantity price entered_time)

/-- The running accumulators of the matching loop in `process_sell_order`. -/
structure SellAcc where
  remaining_to_sell : ℚ
  total_gain_amount : ℚ
  total_weighted_gain : ℚ
  total_qty_matched : ℚ
  lots_matched : Nat
deriving DecidableEq, Repr

/-- The `for lot in open_lots` loop body of `process_sell_order`: clamp to
`min(remaining_to_sell, lot_remaining)`, record the match (per-contract
prices scaled by the hardcoded option multiplier 100), reduce the lot and
accumulate; `break` once `remaining_to_sell ≤ 0`. -/
def sellLoop (order_id : Int) (sell_price : ℚ) :
    DB → List Lot → SellAcc → DB × SellAcc
  | db, [], acc => (db, acc)
  | db, lot :: rest, acc =>
    if acc.remaining_to_sell ≤ 0 then (db, acc)
    else
      let qty_from_lot := min acc.remaining_to_sell lot.remaining_qty
      let cost_for_qty := qty_from_lot * lot.avg_cost * 100
      let revenue_for_qty := qty_from_lot * sell_price * 100
      let gain_amount := revenue_for_qty - cost_for_qty
      let gain_pct :=
        if 0 < lot.avg_cost then (sell_price - lot.avg_cost) / lot.avg_cost * 100 else 0
      let db1 := record_lot_match db order_id lot.lot_id qty_from_lot lot.avg_cost
        sell_price gain_pct gain_amount
      let db2 := reduce_lot_quantity db1 lot.lot_id qty_from_lot
      sellLoop order_id sell_price db2 rest
        { remaining_to_sell := acc.remaining_to_sell - qty_from_lot
          total_gain_amount := acc.total_gain_amount + gain_amount
          total_weighted_gain := acc.total_weighted_gain + gain_pct * qty_from_lot
          total_qty_matched := acc.total_qty_matched + qty_from_lot
          lots_matched := acc.lots_matched + 1 }

/-- `process_sell_order` (src/app/domain/cost_basis.py): LIFO matching of a
sell order against open lots. -/
def process_sell_order (db : DB) (order_id : Int) (symbol : String)
    (filled_quantity sell_price : ℚ) : Option GainResult × DB :=
  if check_sell_already_matched db order_id then
    match get_avg_gain_for_sell db order_id with
    | some avg_gain => (some ⟨avg_gain, 0, 0⟩, db)
    | none => (none, db)
  else if check_sell_unmatched db order_id then (none, db)
  else
    let open_lots := get_open_lots_lifo db symbol
    if open_lots.isEmpty then
      (none, record_unmatched_sell db order_id symbol filled_quantity sell_price)
    else
      let r := sellLoop order_id sell_price db open_lots
        ⟨filled_quantity, 0, 0, 0, 0⟩
      if 0 < r.2.total_qty_matched then
        (some ⟨r.2.total_weighted_gain / r.2.total_qty_matched,
               r.2.total_gain_amount, r.2.lots_matched⟩, r.1)
      else (none, r.1)

/-- One engine call, as issued by `TradeProcessor._process_cost_basis`. -/
inductive Call where
  | buy (order_id : Int) (symbol : String) (filled_quantity price : ℚ)
      (entered_time : String)
  | sell (order_id : Int) (symbol : String) (filled_quantity sell_price : ℚ)

def runCall (db : DB) : Call → DB
  | .buy oid sym q p t => (process_buy_order db oid sym q p t).2
  | .sell oid sym q p => (process_sell_order db oid sym q p).2

def runTrace (db : DB) (cs : List Call) : DB := cs.foldl runCall db

/-- The database of the §8 weighted-average example: lot A (2 units, cost
1.00) entered after lot B (3 units, cost 2.00), so LIFO visits A first. -/
def exampleDB : DB :=
  runTrace initDB
    [.buy 1 "S" 2 1 "2024-01-02", .buy 2 "S" 3 2 "2024-01-01"]

/-- Invariant claimed for lots: `0 ≤ remaining_qty ≤ quantity`. -/
def LotInv (db : DB) : Prop :=
  ∀ l ∈ db.lots, 0 ≤ l.remaining_qty ∧ l.remaining_qty ≤ l.quantity

/-- Structural invariant of the store: lot ids are pairwise distinct and
below the autoincrement counter. -/
def IdInv (db : DB) : Prop :=
  db.lots.Pairwise (fun a b => a.lot_id ≠ b.lot_id) ∧
    ∀ l ∈ db.lots, l.lot_id < db.next_lot_id

/-- Fill quantities reported by the brokerage are nonnegative. -/
def buyNonneg : Call → Prop
  | .buy _ _ q _ _ => 0 ≤ q
  | .sell _ _ _ _ => True

/-- The remaining quantity of the lot row with a given lot id. -/
def lotRemaining (db : DB) (i : Nat) : Option ℚ :=
  (db.lots.find? (fun l => l.lot_id == i)).map (fun l => l.remaining_qty)

/-- Modelled from the spec: the per-instrument-type contract multiplier
claimed in §4.3 — "100 for option-type instruments and 1 otherwise".
The source engine itself takes no instrument type. -/
def contract_multiplier_spec (asset_type : String) : ℚ :=
  if asset_type = "OPTION" then 100 else 1

end CostBasis

namespace Trades

/-- The fill-level trade record passed to `store_trade_fill`
(src/app/db/trades_repo.py); optional columns are `Option`s. -/
structure TradeIn where
  account_number : String
  instrument_id : Int
  order_id : Int
  leg_id : Option Int
  execution_time : String
  symbol : String
  asset_type : String
  instruction : String
  position_effect : Option String
  fill_quantity : ℚ
  fill_price : Option ℚ
  status : Option String
  description : Option String
  entered_time : Option String
  close_time : Option String
deriving DecidableEq, Repr

/-- Python `f"{trade.leg_id or ''}"`: `None` and `0` both render empty. -/
def legIdStr : Option Int → String
  | some i => if i = 0 then "" else toString i
  | none => ""

/-- Python `f"{trade.fill_price or ''}"`: `None` and `0.0` render empty. -/
def priceStr : Option ℚ → String
  | some p => if p = 0 then "" else toString p
  | none => ""

/-- `make_trade_id`: the stable fill identity string. -/
def make_trade_id (t : TradeIn) : String :=
  "schwab-fill:" ++ t.account_number ++ "|" ++ toString t.instrument_id ++ "|" ++
    toString t.order_id ++ "|" ++ legIdStr t.leg_id ++ "|" ++ t.execution_time ++ "|" ++
    toString t.fill_quantity ++ "|" ++ priceStr t.fill_price

/-- One row of the `trades` table (src/app/db/trades_db.py); `trade_id`
is the TEXT primary key. -/
structure TradeRow where
  trade_id : String
  account_number : String
  instrument_id : Int
  order_id : Int
  leg_id : Option Int
  execution_time : String
  symbol : String
  asset_type : String
  instruction : String
  position_effect : Option String
  fill_quantity : ℚ
  fill_price : Option ℚ
  status : Option String
  description : Option String
  entered_time : Option String
  close_time : Option String
  posted : Bool
  posted_at : Option String
  discord_message_id : Option String
  ingested_at : String
deriving DecidableEq, Repr

/-- The `trades` table. -/
structure TradesDB where
  rows : List TradeRow
deriving DecidableEq, Repr

/-- `store_trade_fill`: `INSERT OR IGNORE` keyed on the `trade_id`
primary key; new rows start with `posted = 0`, `posted_at = NULL`,
`discord_message_id = NULL`. `now` stands for `_now_iso()`. -/
def store_trade_fill (db : TradesDB) (now : String) (t : TradeIn) : String × TradesDB :=
  let tid := make_trade_id t
  if db.rows.any (fun r => r.trade_id == tid) then (tid, db)
  else
    (tid,
      ⟨db.rows ++
        [⟨tid, t.account_number, t.instrument_id, t.order_id, t.leg_id,
          t.execution_time, t.symbol, t.asset_type, t.instruction,
          t.position_effect, t.fill_quantity, t.fill_price, t.status,
          t.description, t.entered_time, t.close_time,
          false, none, none, now⟩]⟩)

/-- The number of rows an `UPDATE ... WHERE trade_id = ?` touches. -/
def affected_rows (db : TradesDB) (tid : String) : Nat :=
  (db.rows.filter (fun r => r.trade_id == tid)).length

/-- SQL `COALESCE(?, discord_message_id)`. -/
def coalesce (mid old : Option String) : Option String :=
  match mid with
  | some m => some m
  | none => old

/-- `mark_posted`: UPDATE setting `posted = 1`, overwriting `posted_at`
with the current time, and COALESCEing `discord_message_id`. The source
performs no affected-row-count check and signals no error. -/
def mark_posted (db : TradesDB) (now : String) (tid : String)
    (mid : Option String) : TradesDB :=
  ⟨db.rows.map (fun r =>
    if r.trade_id == tid then
      { r with
        posted := true
        posted_at := some now
        discord_message_id := coalesce mid r.discord_message_id }
    else r)⟩

/-- One mutation of the `trades` table. -/
inductive TOp where
  | store (now : String) (t : TradeIn)
  | mark (now : String) (tid : String) (mid : Option String)

def runTOp (db : TradesDB) : TOp → TradesDB
  | .store now t => (store_trade_fill db now t).2
  | .mark now tid mid => mark_posted db now tid mid

def runTOps (db : TradesDB) (ops : List TOp) : TradesDB := ops.foldl runTOp db

/-- A concrete fill used to exercise the trades table. -/
def sampleTrade : TradeIn :=
  ⟨"acct1", 7, 42, none, "2024-01-01T10:00:00Z", "AAPL", "EQUITY", "BUY",
    some "OPENING", 1, some 2, some "WORKING", none, none, none⟩

end Trades

namespace Retry

/-- Which Python exception class an attempt of the wrapped call raises:
`connError` covers `ConnectionError`/`Timeout`, `reqError` every other
`RequestException` (e.g. the `HTTPError` that `raise_for_status` raises
on an authentication failure or malformed request), `otherError`
anything outside the `requests` exception hierarchy. -/
inductive ApiError where
  | connError
  | reqError
  | otherError
deriving DecidableEq, Repr

/-- The outcome of one attempt of the wrapped call. -/
inductive ApiOutcome (α : Type) where
  | success (a : α)
  | fail (e : ApiError)
deriving DecidableEq, Repr

/-- How `_retry_with_backoff` terminates: normal return, the aggregated
`SchwabApiError` wrapping the last cause, or an exception it never
catches. -/
inductive RetryOutcome (α : Type) where
  | ok (a : α)
  | schwabApiError (last : Option ApiError)
  | uncaught (e : ApiError)
deriving DecidableEq, Repr

/-- `Defaults.MAX_RETRIES` (src/app/constants.py). -/
def MAX_RETRIES : Nat := 3

/-- `Defaults.RETRY_DELAY_BASE` (src/app/constants.py). -/
def RETRY_DELAY_BASE : Nat := 2

/-- The `for attempt in range(max_retries + 1)` loop of
`_retry_with_backoff` (src/app/api/schwab.py), with `last_exception`
threaded through; the second component collects the `time.sleep`
durations in order. Both caught exception branches sleep
`base_delay * 2 ** attempt` when `attempt < max_retries`; an exception
outside `RequestException` escapes at once. -/
def retryGo (f : Nat → ApiOutcome α) (max_retries base_delay : Nat)
    (last : Option ApiError) : List Nat → RetryOutcome α × List Nat
  | [] => (.schwabApiError last, [])
  | attempt :: rest =>
    match f attempt with
    | .success a => (.ok a, [])
    | .fail .connError =>
      if attempt < max_retries then
        let r := retryGo f max_retries base_delay (some .connError) rest
        (r.1, base_delay * 2 ^ attempt :: r.2)
      else retryGo f max_retries base_delay (some .connError) rest
    | .fail .reqError =>
      if attempt < max_retries then
        let r := retryGo f max_retries base_delay (some .reqError) rest
        (r.1, base_delay * 2 ^ attempt :: r.2)
      else retryGo f max_retries base_delay (some .reqError) rest
    | .fail .otherError => (.uncaught .otherError, [])

/-- `_retry_with_backoff(func, max_retries, base_delay)`: the attempt at
index `i` of the wrapped call has outcome `f i`. -/
def retry_with_backoff (f : Nat → ApiOutcome α) (max_retries base_delay : Nat) :
    RetryOutcome α × List Nat :=
  retryGo f max_retries base_delay none (List.range (max_retries + 1))

end Retry

open CostBasis Trades Retry

/-- A database holding one already-recorded match for sell order 9
(2 contracts from a lot of cost 1 sold at 3: gain 200%, $400). -/
def matchedDB : CostBasis.DB :=
  ⟨[⟨1, 8, "S", "S", 2, 0, 1, "2024-01-02"⟩],
   [⟨1, 9, 1, 2, 1, 3, 200, 400⟩], [], 2, 2⟩

/-- A database holding one open lot of a plain equity instrument
("AAPL", no option marker in the symbol): 1 share at cost 1.00. -/
def equityDB : CostBasis.DB :=
  ⟨[⟨1, 10, "AAPL", "AAPL", 1, 1, 1, "2024-01-01"⟩], [], [], 2, 1⟩

/-- A `trades` row used to exercise `mark_posted`. -/
def sampleRow : Trades.TradeRow :=
  ⟨"T", "acct1", 7, 42, none, "2024-01-01T10:00:00Z", "AAPL", "EQUITY", "BUY",
    some "OPENING", 1, none, none, none, none, none, false, none, none, "i0"⟩

/-- C1. Closing 5 contracts against lot A (2 units remaining, average
cost 1.00, newest) and then lot B (3 units remaining, average cost 2.00)
at close price 3.00 with multiplier 100 records Match A with
gain_pct = 200 and gain_amount = 400, Match B with gain_pct = 50 and
gain_amount = 300, and returns the quantity-weighted average gain
(200*2 + 50*3)/5 = 110. -/
theorem C1_weighted_average :
    (process_sell_order exampleDB 3 "S" 5 3).1 = some ⟨110, 700, 2⟩ ∧
    (process_sell_order exampleDB 3 "S" 5 3).2.lot_matches =
      [⟨1, 3, 1, 2, 1, 3, 200, 400⟩, ⟨2, 3, 2, 3, 2, 3, 50, 300⟩] := by
  norm_num +decide [process_sell_order, sellLoop, exampleDB, runTrace, runCall,
    process_buy_order, check_buy_already_recorded, create_cost_basis_lot,
    extract_underlying, initDB, check_sell_already_matched, check_sell_unmatched,
    matchesForSell, get_avg_gain_for_sell, get_open_lots_lifo, List.insertionSort,
    List.orderedInsert, lifoOrder, textLt, charsLt, record_lot_match,
    reduce_lot_quantity, updRemaining, record_unmatched_sell, List.filter]

/-- C5. Calling the matching engine again for an order id that already
has at least one Match row leaves the database (lot_matches table and
all lot rows) unchanged. -/
theorem C5_already_matched_noop (db : CostBasis.DB) (oid : Int) (sym : String)
    (q p : ℚ) (h : matchesForSell db oid ≠ []) :
    (process_sell_order db oid sym q p).2 = db := by
  have hb : check_sell_already_matched db oid = true := by
    simp [check_sell_already_matched, List.isEmpty_iff, h]
  rw [process_sell_order]
  rw [hb]
  cases hg : get_avg_gain_for_sell db oid <;> simp

/-- C5 witness at a concrete database. -/
theorem C5_witness : (process_sell_order matchedDB 9 "S" 1 1).2 = matchedDB :=
  C5_already_matched_noop matchedDB 9 "S" 1 1 (by decide)

/-- C10. For an already-matched order id whose stored weighted average
exists, a repeated `process_sell_order` call returns that stored average
with `total_gain_amount = 0` and `lots_matched = 0`, leaving the
database untouched. -/
theorem C10_rerun_zero_total (db : CostBasis.DB) (oid : Int) (sym : String)
    (q p g : ℚ) (h : get_avg_gain_for_sell db oid = some g) :
    process_sell_order db oid sym q p = (some ⟨g, 0, 0⟩, db) := by
  have hne : matchesForSell db oid ≠ [] := by
    intro he
    rw [get_avg_gain_for_sell] at h
    simp [he] at h
  have hb : check_sell_already_matched db oid = true := by
    simp [check_sell_already_matched, List.isEmpty_iff, hne]
  rw [process_sell_order, hb]
  simp [h]

/-- C10 witness at a concrete database: the stored average is
(2 * 200) / 2 = 200 and the repeated call returns it with zero total. -/
theorem C10_witness :
    process_sell_order matchedDB 9 "S" 1 1 = (some ⟨200, 0, 0⟩, matchedDB) :=
  C10_rerun_zero_total matchedDB 9 "S" 1 1 200
    (by norm_num [get_avg_gain_for_sell, matchesForSell, matchedDB])

/-- C6. With no open lots for the symbol and no prior match or unmatched
record for the order id, `process_sell_order` returns "no match"
(`none`), creates no Match row, records exactly one UnmatchedClose row
keyed by the order id, and a later re-run for the same order id is a
complete no-op that still creates no Match rows. -/
theorem C6_no_lot_scenario (db : CostBasis.DB) (oid : Int) (sym : String)
    (q p : ℚ) (h1 : matchesForSell db oid = [])
    (h2 : ∀ u ∈ db.unmatched, u.sell_order_id ≠ oid)
    (h3 : get_open_lots_lifo db sym = []) :
    (process_sell_order db oid sym q p).1 = none ∧
    (process_sell_order db oid sym q p).2.lot_matches = db.lot_matches ∧
    ((process_sell_order db oid sym q p).2.unmatched.filter
        (fun u => u.sell_order_id == oid)).length
      = (db.unmatched.filter (fun u => u.sell_order_id == oid)).length + 1 ∧
    ∀ sym' q' p',
      process_sell_order (process_sell_order db oid sym q p).2 oid sym' q' p'
        = (none, (process_sell_order db oid sym q p).2) := by
  have hb : check_sell_already_matched db oid = false := by
    simp [check_sell_already_matched, List.isEmpty_iff, h1]
  have hu : check_sell_unmatched db oid = false := by
    simp only [check_sell_unmatched, List.any_eq_false]
    intro u hu
    simp [h2 u hu]
  have hrec : record_unmatched_sell db oid sym q p
      = { db with unmatched := db.unmatched ++ [⟨oid, sym, q, p⟩] } := by
    rw [record_unmatched_sell, if_neg]
    simp only [List.any_eq_true, not_exists, not_and]
    intro u hu
    simp [h2 u hu]
  have hmain : process_sell_order db oid sym q p
      = (none, { db with unmatched := db.unmatched ++ [⟨oid, sym, q, p⟩] }) := by
    rw [process_sell_order, hb]
    simp only [Bool.false_eq_true, if_false, hu, h3, List.isEmpty_nil, if_true, hrec]
  rw [hmain]
  refine ⟨rfl, rfl, ?_, ?_⟩
  · have hfil : db.unmatched.filter (fun u => u.sell_order_id == oid) = [] := by
      rw [List.filter_eq_nil_iff]
      intro u hu
      simp [h2 u hu]
    simp [List.filter_append, hfil]
  · intro sym' q' p'
    have hb' : check_sell_already_matched
        { db with unmatched := db.unmatched ++ [⟨oid, sym, q, p⟩] } oid = false := by
      simpa [check_sell_already_matched, List.isEmpty_iff, matchesForSell] using
        (by simpa [matchesForSell] using h1 :
          List.filter (fun m => m.sell_order_id == oid) db.lot_matches = [])
    have hu' : check_sell_unmatched
        { db with unmatched := db.unmatched ++ [⟨oid, sym, q, p⟩] } oid = true := by
      simp [check_sell_unmatched]
    rw [process_sell_order, hb']
    simp only [Bool.false_eq_true, if_false, hu', if_true]

/-- C6 witness on an empty database. -/
theorem C6_witness :
    (process_sell_order initDB 5 "S" 1 1).1 = none ∧
    (process_sell_order initDB 5 "S" 1 1).2.lot_matches = initDB.lot_matches ∧
    ((process_sell_order initDB 5 "S" 1 1).2.unmatched.filter
        (fun u => u.sell_order_id == 5)).length
      = (initDB.unmatched.filter (fun u => u.sell_order_id == 5)).length + 1 ∧
    ∀ sym' q' p',
      process_sell_order (process_sell_order initDB 5 "S" 1 1).2 5 sym' q' p'
        = (none, (process_sell_order initDB 5 "S" 1 1).2) :=
  C6_no_lot_scenario initDB 5 "S" 1 1 (by decide) (by decide) (by decide)

lemma updRemaining_lot_id (i : Nat) (s : ℚ) (l : Lot) :
    (updRemaining i s l).lot_id = l.lot_id := by
  unfold updRemaining
  split <;> rfl

lemma find?_map_lot_id (f : Lot → Lot) (hf : ∀ l, (f l).lot_id = l.lot_id)
    (ls : List Lot) (i : Nat) :
    (ls.map f).find? (fun l => l.lot_id == i)
      = (ls.find? (fun l => l.lot_id == i)).map f := by
  induction ls with
  | nil => rfl
  | cons a as ih =>
    cases ha : (a.lot_id == i) with
    | false =>
      have hfa : ((f a).lot_id == i) = false := by rw [hf]; exact ha
      rw [List.map_cons, List.find?_cons_of_neg _ (by simp [hfa]),
        List.find?_cons_of_neg _ (by simp [ha]), ih]
    | true =>
      have hfa : ((f a).lot_id == i) = true := by rw [hf]; exact ha
      rw [List.map_cons, List.find?_cons_of_pos _ (by simp [hfa]),
        List.find?_cons_of_pos _ (by simp [ha]), Option.map_some']

lemma find?_append_some {α : Type} {p : α → Bool} {l1 : List α} (l2 : List α)
    {a : α} (h : l1.find? p = some a) : (l1 ++ l2).find? p = some a := by
  induction l1 with
  | nil => simp at h
  | cons x xs ih =>
    cases hx : p x with
    | false =>
      rw [List.find?_cons_of_neg _ (by simp [hx])] at h
      rw [List.cons_append, List.find?_cons_of_neg _ (by simp [hx])]
      exact ih h
    | true =>
      rw [List.find?_cons_of_pos _ hx] at h
      rw [List.cons_append, List.find?_cons_of_pos _ hx]
      exact h

lemma pairwise_ne_unique {l : List Lot}
    (hp : l.Pairwise (fun a b => a.lot_id ≠ b.lot_id)) :
    ∀ a ∈ l, ∀ b ∈ l, a.lot_id = b.lot_id → a = b := by
  induction l with
  | nil => intro a ha; simp at ha
  | cons x xs ih =>
    rw [List.pairwise_cons] at hp
    intro a ha b hb hab
    rcases List.mem_cons.mp ha with rfl | ha₂
    · rcases List.mem_cons.mp hb with rfl | hb₂
      · rfl
      · exact absurd hab (hp.1 b hb₂)
    · rcases List.mem_cons.mp hb with rfl | hb₂
      · exact absurd hab.symm (hp.1 a ha₂)
      · exact ih hp.2 a ha₂ b hb₂ hab

lemma LotInv_reduce {db : CostBasis.DB} {lot : Lot} {sold : ℚ} (hli : LotInv db)
    (huni : ∀ l ∈ db.lots, l.lot_id = lot.lot_id → l = lot)
    (h0 : 0 ≤ sold) (hle : sold ≤ lot.remaining_qty) :
    LotInv (reduce_lot_quantity db lot.lot_id sold) := by
  intro l' hl'
  obtain ⟨l, hl, rfl⟩ :=
    List.mem_map.mp (by simpa [reduce_lot_quantity] using hl')
  by_cases h : l.lot_id = lot.lot_id
  · have hllot : l = lot := huni l hl h
    subst hllot
    have hupd : updRemaining l.lot_id sold l
        = { l with remaining_qty := l.remaining_qty - sold } := by
      simp [updRemaining]
    rw [hupd]
    refine ⟨?_, ?_⟩
    · simpa using sub_nonneg.mpr hle
    · calc l.remaining_qty - sold ≤ l.remaining_qty := sub_le_self _ h0
        _ ≤ l.quantity := (hli l hl).2
  · have hupd : updRemaining lot.lot_id sold l = l := by
      simp [updRemaining, h]
    rw [hupd]
    exact hli l hl

lemma IdInv_reduce {db : CostBasis.DB} {i : Nat} {sold : ℚ} (hid : IdInv db) :
    IdInv (reduce_lot_quantity db i sold) := by
  constructor
  · refine List.pairwise_map.mpr (hid.1.imp ?_)
    intro a b h
    simpa [updRemaining_lot_id] using h
  · intro l' hl'
    obtain ⟨l, hl, rfl⟩ :=
      List.mem_map.mp (by simpa [reduce_lot_quantity] using hl')
    simpa [reduce_lot_quantity, updRemaining_lot_id] using hid.2 l hl

lemma corr_reduce {db : CostBasis.DB} {lot : Lot} {sold : ℚ} {rest : List Lot}
    (hcorr : ∀ p ∈ lot :: rest, ∀ l ∈ db.lots, l.lot_id = p.lot_id → l = p)
    (hne : ∀ p ∈ rest, lot.lot_id ≠ p.lot_id) :
    ∀ p ∈ rest, ∀ l' ∈ (reduce_lot_quantity db lot.lot_id sold).lots,
      l'.lot_id = p.lot_id → l' = p := by
  intro p hp l' hl' heq
  obtain ⟨l, hl, rfl⟩ :=
    List.mem_map.mp (by simpa [reduce_lot_quantity] using hl')
  rw [updRemaining_lot_id] at heq
  have hlp : l = p := hcorr p (List.mem_cons_of_mem _ hp) l hl heq
  have hno : (l.lot_id == lot.lot_id) = false := by
    simp only [beq_eq_false_iff_ne, ne_eq]
    rw [heq]
    exact fun hx => (hne p hp) hx.symm
  rw [updRemaining, hno]
  · exact hlp
  
lemma sellLoop_preserves (oid : Int) (sp : ℚ) (pend : List Lot) :
    ∀ (db : CostBasis.DB) (acc : SellAcc),
      LotInv db → IdInv db →
      pend.Pairwise (fun a b => a.lot_id ≠ b.lot_id) →
      (∀ p ∈ pend, 0 < p.remaining_qty) →
      (∀ p ∈ pend, ∀ l ∈ db.lots, l.lot_id = p.lot_id → l = p) →
      LotInv (sellLoop oid sp db pend acc).1 ∧
        IdInv (sellLoop oid sp db pend acc).1 := by
  induction pend with
  | nil =>
    intro db acc hli hid _ _ _
    simpa [sellLoop] using And.intro hli hid
  | cons lot rest ih =>
    intro db acc hli hid hpair hpos hcorr
    rw [List.pairwise_cons] at hpair
    by_cases hle : acc.remaining_to_sell ≤ 0
    · simpa [sellLoop, hle] using And.intro hli hid
    · rw [sellLoop, if_neg hle]
      have hrts : 0 < acc.remaining_to_sell := not_le.mp hle
      have hlotpos : 0 < lot.remaining_qty := hpos lot (List.mem_cons_self _ _)
      have hq0 : (0:ℚ) ≤ min acc.remaining_to_sell lot.remaining_qty :=
        le_of_lt (lt_min hrts hlotpos)
      have hqle : min acc.remaining_to_sell lot.remaining_qty ≤ lot.remaining_qty :=
        min_le_right _ _
      have hcorr1 : ∀ l ∈ db.lots, l.lot_id = lot.lot_id → l = lot :=
        hcorr lot (List.mem_cons_self _ _)
      refine ih _ _ ?_ ?_ hpair.2 (fun p hp => hpos p (List.mem_cons_of_mem _ hp)) ?_
      · exact LotInv_reduce hli hcorr1 hq0 hqle
      · exact IdInv_reduce hid
      · exact corr_reduce hcorr hpair.1

lemma lifo_ne_symm : Symmetric (fun a b : Lot => a.lot_id ≠ b.lot_id) :=
  fun _ _ h he => h he.symm

lemma open_lots_mem {db : CostBasis.DB} {sym : String} {p : Lot}
    (hp : p ∈ get_open_lots_lifo db sym) :
    p ∈ db.lots ∧ 0 < p.remaining_qty := by
  have hmem : p ∈ db.lots.filter
      (fun l => l.symbol == sym && decide (0 < l.remaining_qty)) :=
    ((List.perm_insertionSort lifoOrder _).mem_iff).mp hp
  have h2 := List.mem_filter.mp hmem
  refine ⟨h2.1, ?_⟩
  have := h2.2
  simp only [Bool.and_eq_true, decide_eq_true_eq] at this
  exact this.2

lemma open_lots_pairwise {db : CostBasis.DB} (sym : String) (hid : IdInv db) :
    (get_open_lots_lifo db sym).Pairwise (fun a b => a.lot_id ≠ b.lot_id) := by
  have hfil : (db.lots.filter
      (fun l => l.symbol == sym && decide (0 < l.remaining_qty))).Pairwise
      (fun a b => a.lot_id ≠ b.lot_id) :=
    hid.1.sublist (List.filter_sublist _)
  exact ((List.perm_insertionSort lifoOrder _).pairwise_iff
    (fun h he => h he.symm)).mpr hfil

lemma LotInv_buy {db : CostBasis.DB} (oid : Int) (sym : String) {q : ℚ} (p : ℚ)
    (t : String) (hli : LotInv db) (hid : IdInv db) (hq : 0 ≤ q) :
    LotInv (process_buy_order db oid sym q p t).2 ∧
      IdInv (process_buy_order db oid sym q p t).2 := by
  rw [process_buy_order]
  split
  · exact ⟨hli, hid⟩
  · rw [create_cost_basis_lot]
    split
    · exact ⟨hli, hid⟩
    · constructor
      · intro l hl
        rcases List.mem_append.mp hl with hl₂ | hl₂
        · exact hli l hl₂
        · rcases List.mem_singleton.mp hl₂ with rfl
          exact ⟨hq, le_refl _⟩
      · constructor
        · rw [List.pairwise_append]
          refine ⟨hid.1, List.pairwise_singleton _ _, ?_⟩
          intro a ha b hb
          rcases List.mem_singleton.mp hb with rfl
          exact Nat.ne_of_lt (hid.2 a ha)
        · intro l hl
          rcases List.mem_append.mp hl with hl₂ | hl₂
          · exact Nat.lt_succ_of_lt (hid.2 l hl₂)
          · rcases List.mem_singleton.mp hl₂ with rfl
            exact Nat.lt_succ_self _

lemma LotInv_sell {db : CostBasis.DB} (oid : Int) (sym : String) (q p : ℚ)
    (hli : LotInv db) (hid : IdInv db) :
    LotInv (process_sell_order db oid sym q p).2 ∧
      IdInv (process_sell_order db oid sym q p).2 := by
  simp only [process_sell_order]
  split
  · split <;> exact ⟨hli, hid⟩
  · split
    · exact ⟨hli, hid⟩
    · split
      · rw [record_unmatched_sell]
        split
        · exact ⟨hli, hid⟩
        · exact ⟨hli, hid⟩
      · have hfacts := sellLoop_preserves oid p (get_open_lots_lifo db sym) db
          ⟨q, 0, 0, 0, 0⟩ hli hid (open_lots_pairwise sym hid)
          (fun pp hp => (open_lots_mem hp).2)
          (fun pp hp l hl heq =>
            pairwise_ne_unique hid.1 l hl pp (open_lots_mem hp).1 heq)
        split
        · exact hfacts
        · exact hfacts

lemma runTrace_preserves (cs : List Call) :
    ∀ db : CostBasis.DB, LotInv db → IdInv db → (∀ c ∈ cs, buyNonneg c) →
      LotInv (runTrace db cs) ∧ IdInv (runTrace db cs) := by
  induction cs with
  | nil => intro db hli hid _; exact ⟨hli, hid⟩
  | cons c cs ih =>
    intro db hli hid hb
    have hstep : LotInv (runCall db c) ∧ IdInv (runCall db c) := by
      cases c with
      | buy oid sym q p t =>
        exact LotInv_buy oid sym p t hli hid (hb _ (List.mem_cons_self _ _))
      | sell oid sym q p => exact LotInv_sell oid sym q p hli hid
    exact ih (runCall db c) hstep.1 hstep.2 (fun c' hc' => hb c' (List.mem_cons_of_mem _ hc'))

lemma lotRemaining_reduce_le (db : CostBasis.DB) (i : Nat) {sold : ℚ}
    (h0 : 0 ≤ sold) {j : Nat} {r : ℚ} (hr : lotRemaining db j = some r) :
    ∃ r', lotRemaining (reduce_lot_quantity db i sold) j = some r' ∧ r' ≤ r := by
  rw [lotRemaining] at hr
  obtain ⟨l, hfind, hrem⟩ := Option.map_eq_some'.mp hr
  have hmapped : (db.lots.map (updRemaining i sold)).find? (fun l => l.lot_id == j)
      = some (updRemaining i sold l) := by
    rw [find?_map_lot_id (updRemaining i sold) (updRemaining_lot_id i sold), hfind,
      Option.map_some']
  refine ⟨(updRemaining i sold l).remaining_qty, ?_, ?_⟩
  · show ((db.lots.map (updRemaining i sold)).find? (fun l => l.lot_id == j)).map
      (fun l => l.remaining_qty) = _
    rw [hmapped, Option.map_some']
  · rw [updRemaining]
    split
    · rw [← hrem]
      exact sub_le_self _ h0
    · rw [← hrem]

lemma sellLoop_mono (oid : Int) (sp : ℚ) (pend : List Lot) :
    ∀ (db : CostBasis.DB) (acc : SellAcc), (∀ p ∈ pend, 0 < p.remaining_qty) →
      ∀ j r, lotRemaining db j = some r →
        ∃ r', lotRemaining (sellLoop oid sp db pend acc).1 j = some r' ∧ r' ≤ r := by
  induction pend with
  | nil =>
    intro db acc _ j r hr
    exact ⟨r, by simpa [sellLoop] using hr, le_refl r⟩
  | cons lot rest ih =>
    intro db acc hpos j r hr
    by_cases hle : acc.remaining_to_sell ≤ 0
    · rw [sellLoop, if_pos hle]
      exact ⟨r, hr, le_refl r⟩
    · rw [sellLoop, if_neg hle]
      have h0 : (0:ℚ) ≤ min acc.remaining_to_sell lot.remaining_qty :=
        le_of_lt (lt_min (not_le.mp hle) (hpos lot (List.mem_cons_self _ _)))
      obtain ⟨r1, hr1, hle1⟩ := lotRemaining_reduce_le
        (record_lot_match db oid lot.lot_id
          (min acc.remaining_to_sell lot.remaining_qty) lot.avg_cost sp
          (if 0 < lot.avg_cost then (sp - lot.avg_cost) / lot.avg_cost * 100 else 0)
          (min acc.remaining_to_sell lot.remaining_qty * sp * 100
            - min acc.remaining_to_sell lot.remaining_qty * lot.avg_cost * 100))
        lot.lot_id h0 hr
      obtain ⟨r2, hr2, hle2⟩ :=
        ih _ _ (fun p hp => hpos p (List.mem_cons_of_mem _ hp)) j r1 hr1
      exact ⟨r2, hr2, le_trans hle2 hle1⟩

lemma lotRemaining_create (db : CostBasis.DB) (oid : Int) (sym und : String)
    (q p : ℚ) (t : String) (j : Nat) (r : ℚ) (hr : lotRemaining db j = some r) :
    lotRemaining (create_cost_basis_lot db oid sym und q p t) j = some r := by
  rw [create_cost_basis_lot]
  split
  · exact hr
  · rw [lotRemaining] at hr
    obtain ⟨l, hfind, hrem⟩ := Option.map_eq_some'.mp hr
    show ((db.lots ++ [(⟨db.next_lot_id, oid, sym, und, q, q, p, t⟩ : Lot)]).find?
        (fun l : Lot => l.lot_id == j)).map (fun l : Lot => l.remaining_qty) = some r
    rw [find?_append_some _ hfind, Option.map_some', hrem]

lemma runCall_mono (db : CostBasis.DB) (c : Call) (j : Nat) (r : ℚ)
    (hr : lotRemaining db j = some r) :
    ∃ r', lotRemaining (runCall db c) j = some r' ∧ r' ≤ r := by
  cases c with
  | buy oid sym q p t =>
    refine ⟨r, ?_, le_refl r⟩
    simp only [runCall, process_buy_order]
    split
    · exact hr
    · exact lotRemaining_create db oid sym _ q p t j r hr
  | sell oid sym q p =>
    simp only [runCall, process_sell_order]
    split
    · split <;> exact ⟨r, hr, le_refl r⟩
    · split
      · exact ⟨r, hr, le_refl r⟩
      · split
        · refine ⟨r, ?_, le_refl r⟩
          rw [record_unmatched_sell]
          split
          · exact hr
          · exact hr
        · have hmono := sellLoop_mono oid p (get_open_lots_lifo db sym) db
            ⟨q, 0, 0, 0, 0⟩ (fun pp hp => (open_lots_mem hp).2) j r hr
          split
          · exact hmono
          · exact hmono

/-- C2. For every trace of `process_buy_order` / `process_sell_order`
calls with nonnegative buy fill quantities, every lot of the resulting
store satisfies `0 ≤ remaining_qty ≤ quantity`, and one further engine
call can only decrease (never increase) the remaining quantity of any
existing lot: matching clamps each reduction to
`min(remaining_to_sell, lot.remaining_qty)`. -/
theorem C2_lot_invariants (cs : List Call) (h : ∀ c ∈ cs, buyNonneg c) :
    (∀ l ∈ (runTrace initDB cs).lots,
      0 ≤ l.remaining_qty ∧ l.remaining_qty ≤ l.quantity) ∧
    ∀ (c : Call) (j : Nat) (r : ℚ),
      lotRemaining (runTrace initDB cs) j = some r →
      ∃ r', lotRemaining (runCall (runTrace initDB cs) c) j = some r' ∧ r' ≤ r := by
  have hinit : LotInv initDB ∧ IdInv initDB := by
    unfold LotInv IdInv initDB
    simp
  have hmain := runTrace_preserves cs initDB hinit.1 hinit.2 h
  exact ⟨hmain.1, fun c j r hr => runCall_mono _ c j r hr⟩

/-- C2 witness: a concrete buy-then-sell trace. -/
theorem C2_witness :
    (∀ c ∈ [Call.buy 1 "S" 2 1 "t1", Call.sell 2 "S" 1 3], buyNonneg c) ∧
    ((∀ l ∈ (runTrace initDB [Call.buy 1 "S" 2 1 "t1", Call.sell 2 "S" 1 3]).lots,
        0 ≤ l.remaining_qty ∧ l.remaining_qty ≤ l.quantity) ∧
      ∀ (c : Call) (j : Nat) (r : ℚ),
        lotRemaining (runTrace initDB [Call.buy 1 "S" 2 1 "t1", Call.sell 2 "S" 1 3]) j
          = some r →
        ∃ r', lotRemaining
            (runCall (runTrace initDB [Call.buy 1 "S" 2 1 "t1", Call.sell 2 "S" 1 3]) c) j
          = some r' ∧ r' ≤ r) := by
  have hb : ∀ c ∈ [Call.buy 1 "S" 2 1 "t1", Call.sell 2 "S" 1 3], buyNonneg c := by
    intro c hc
    rcases List.mem_cons.mp hc with rfl | hc
    · norm_num [buyNonneg]
    rcases List.mem_cons.mp hc with rfl | hc
    · exact trivial
    · simp at hc
  exact ⟨hb, C2_lot_invariants _ hb⟩

lemma sellLoop_gain_formula (oid : Int) (sp : ℚ) (pend : List Lot) :
    ∀ (db : CostBasis.DB) (acc : SellAcc),
      ∀ m ∈ (sellLoop oid sp db pend acc).1.lot_matches,
        m ∈ db.lot_matches ∨
          (m.sell_order_id = oid ∧ m.sell_price = sp ∧
            m.gain_amount = m.quantity * sp * 100 - m.quantity * m.cost_basis * 100 ∧
            m.gain_pct =
              if 0 < m.cost_basis then (sp - m.cost_basis) / m.cost_basis * 100 else 0) := by
  induction pend with
  | nil =>
    intro db acc m hm
    exact Or.inl (by simpa [sellLoop] using hm)
  | cons lot rest ih =>
    intro db acc m hm
    by_cases hle : acc.remaining_to_sell ≤ 0
    · rw [sellLoop, if_pos hle] at hm
      exact Or.inl hm
    · rw [sellLoop, if_neg hle] at hm
      rcases ih _ _ m hm with hmem | hfacts
      · rcases List.mem_append.mp hmem with h | h
        · exact Or.inl h
        · rcases List.mem_singleton.mp h with rfl
          exact Or.inr ⟨rfl, rfl, rfl, rfl⟩
      · exact Or.inr hfacts

/-- C4 (amended). The per-match gain computation multiplies by the
constant 100 for every instrument: each Match row created by
`process_sell_order` — regardless of the symbol or instrument type —
satisfies `gain_amount = qty * close_price * 100 - qty * avg_cost * 100`
and the corresponding `gain_pct` formula. The engine receives no
instrument type and never applies a multiplier of 1. -/
theorem C4_amended_multiplier_always_100 (db : CostBasis.DB) (oid : Int)
    (sym : String) (q p : ℚ) :
    ∀ m ∈ (process_sell_order db oid sym q p).2.lot_matches,
      m ∈ db.lot_matches ∨
        (m.sell_price = p ∧
          m.gain_amount = m.quantity * p * 100 - m.quantity * m.cost_basis * 100 ∧
          m.gain_pct =
            if 0 < m.cost_basis then (p - m.cost_basis) / m.cost_basis * 100 else 0) := by
  intro m hm
  simp only [process_sell_order] at hm
  split at hm
  · split at hm <;> exact Or.inl hm
  · split at hm
    · exact Or.inl hm
    · split at hm
      · rw [record_unmatched_sell] at hm
        split at hm <;> exact Or.inl hm
      · split at hm <;>
          rcases sellLoop_gain_formula oid p (get_open_lots_lifo db sym) db
              ⟨q, 0, 0, 0, 0⟩ m hm with hmem | hfacts
        · exact Or.inl hmem
        · exact Or.inr ⟨hfacts.2.1, hfacts.2.2.1, hfacts.2.2.2⟩
        · exact Or.inl hmem
        · exact Or.inr ⟨hfacts.2.1, hfacts.2.2.1, hfacts.2.2.2⟩

/-- C4 witness: the concrete match recorded for the equity symbol
satisfies the multiplier-100 gain formula. -/
theorem C4_witness :
    (⟨1, 11, 1, 1, 1, 2, 100, 100⟩ : LotMatch) ∈ equityDB.lot_matches ∨
      ((⟨1, 11, 1, 1, 1, 2, 100, 100⟩ : LotMatch).sell_price = 2 ∧
        (⟨1, 11, 1, 1, 1, 2, 100, 100⟩ : LotMatch).gain_amount
          = (⟨1, 11, 1, 1, 1, 2, 100, 100⟩ : LotMatch).quantity * 2 * 100
            - (⟨1, 11, 1, 1, 1, 2, 100, 100⟩ : LotMatch).quantity
              * (⟨1, 11, 1, 1, 1, 2, 100, 100⟩ : LotMatch).cost_basis * 100 ∧
        (⟨1, 11, 1, 1, 1, 2, 100, 100⟩ : LotMatch).gain_pct
          = if 0 < (⟨1, 11, 1, 1, 1, 2, 100, 100⟩ : LotMatch).cost_basis then
              (2 - (⟨1, 11, 1, 1, 1, 2, 100, 100⟩ : LotMatch).cost_basis)
                / (⟨1, 11, 1, 1, 1, 2, 100, 100⟩ : LotMatch).cost_basis * 100
            else 0) :=
  C4_amended_multiplier_always_100 equityDB 11 "AAPL" 1 2
    ⟨1, 11, 1, 1, 1, 2, 100, 100⟩
    (by norm_num +decide [process_sell_order, sellLoop, equityDB,
      check_sell_already_matched, check_sell_unmatched, matchesForSell,
      get_avg_gain_for_sell, get_open_lots_lifo, List.insertionSort,
      List.orderedInsert, lifoOrder, textLt, charsLt, record_lot_match,
      reduce_lot_quantity, updRemaining, record_unmatched_sell, List.filter])

/-- C4 counterexample: for a non-option instrument the engine still
multiplies by 100 — selling 1 unit of the equity lot (cost 1.00) at 2.00
records gain_amount = 100, while the spec multiplier of 1 for non-option
instruments would give 1 * 2 * 1 - 1 * 1 * 1 = 1 ≠ 100. -/
theorem C4_counterexample :
    ((process_sell_order equityDB 11 "AAPL" 1 2).2.lot_matches.map
        (fun m => m.gain_amount)) = [100] ∧
    (1 : ℚ) * 2 * contract_multiplier_spec "EQUITY"
        - 1 * 1 * contract_multiplier_spec "EQUITY" = 1 ∧
    (100 : ℚ) ≠ 1 := by
  refine ⟨?_, by norm_num +decide [contract_multiplier_spec], by norm_num⟩
  norm_num +decide [process_sell_order, sellLoop, equityDB, check_sell_already_matched,
    check_sell_unmatched, matchesForSell, get_avg_gain_for_sell, get_open_lots_lifo,
    List.insertionSort, List.orderedInsert, lifoOrder, textLt, charsLt,
    record_lot_match, reduce_lot_quantity, updRemaining, record_unmatched_sell,
    List.filter]

lemma store_noop_of_present {db : TradesDB} {t : TradeIn} (now : String)
    (h : (db.rows.any (fun r => r.trade_id == make_trade_id t)) = true) :
    (store_trade_fill db now t).2 = db := by
  rw [store_trade_fill]
  simp only [h, if_true]

lemma store_mem_trade_id (db : TradesDB) (now : String) (t : TradeIn) :
    ∃ r ∈ (store_trade_fill db now t).2.rows, r.trade_id = make_trade_id t := by
  rw [store_trade_fill]
  split
  · rename_i h
    obtain ⟨r, hr, hbeq⟩ := List.any_eq_true.mp h
    exact ⟨r, hr, by simpa using hbeq⟩
  · refine ⟨_, List.mem_append_right _ (List.mem_singleton_self _), rfl⟩

/-- C3 (amended). Ingesting the byte-identical payload again is a
complete no-op, and so is re-ingesting it after a mutable field (status,
close time) changed: `INSERT OR IGNORE` leaves the stored row untouched,
refreshing nothing. -/
theorem C3_amended_ignore_not_refresh (db : TradesDB) (n1 n2 : String)
    (t : TradeIn) (st ct : Option String) :
    (store_trade_fill (store_trade_fill db n1 t).2 n2 t).2
        = (store_trade_fill db n1 t).2 ∧
    (store_trade_fill (store_trade_fill db n1 t).2 n2
        { t with status := st, close_time := ct }).2
      = (store_trade_fill db n1 t).2 := by
  obtain ⟨r, hr, hid⟩ := store_mem_trade_id db n1 t
  have hany : ((store_trade_fill db n1 t).2.rows.any
      (fun r => r.trade_id == make_trade_id t)) = true :=
    List.any_eq_true.mpr ⟨r, hr, by simpa using hid⟩
  have hkey : make_trade_id { t with status := st, close_time := ct }
      = make_trade_id t := rfl
  refine ⟨store_noop_of_present n2 hany, ?_⟩
  have hany' : ((store_trade_fill db n1 t).2.rows.any
      (fun r => r.trade_id == make_trade_id { t with status := st, close_time := ct }))
      = true := by rw [hkey]; exact hany
  exact store_noop_of_present n2 hany'

/-- C3 counterexample: ingesting the order again after its status moved
from WORKING to FILLED does not refresh the stored row — the row keeps
status WORKING. -/
theorem C3_counterexample :
    (store_trade_fill (store_trade_fill ⟨[]⟩ "i1" sampleTrade).2 "i2"
        { sampleTrade with status := some "FILLED" }).2
      = (store_trade_fill ⟨[]⟩ "i1" sampleTrade).2 ∧
    ((store_trade_fill ⟨[]⟩ "i1" sampleTrade).2.rows.map (fun r => r.status))
      = [some "WORKING"] ∧
    some "WORKING" ≠ some "FILLED" := by
  have h1 : (store_trade_fill (⟨[]⟩ : TradesDB) "i1" sampleTrade).2.rows.map
      (fun r => r.status) = [some "WORKING"] := by
    rw [store_trade_fill]
    simp [sampleTrade]
  refine ⟨?_, h1, by simp⟩
  have hmem := store_mem_trade_id (⟨[]⟩ : TradesDB) "i1" sampleTrade
  obtain ⟨r, hr, hid⟩ := hmem
  have hany : ((store_trade_fill (⟨[]⟩ : TradesDB) "i1" sampleTrade).2.rows.any
      (fun rr => rr.trade_id
        == make_trade_id { sampleTrade with status := some "FILLED" })) = true :=
    List.any_eq_true.mpr ⟨r, hr, by simpa using hid⟩
  exact store_noop_of_present "i2" hany

/-- C7 counterexample: with no row for the fill, the affected-row count
is 0 ≠ 1 and `mark_posted` still returns normally with the table
unchanged — the source checks no row count and signals no
IntegrityError. -/
theorem C7_counterexample :
    mark_posted ⟨[]⟩ "t1" "missing" none = ⟨[]⟩ ∧
    affected_rows ⟨[]⟩ "missing" = 0 ∧ (0 : Nat) ≠ 1 := by
  refine ⟨?_, ?_, by simp⟩
  · rw [mark_posted]
    rfl
  · rfl

/-- C7 (amended). `mark_posted` performs the single UPDATE but never
inspects the affected-row count and never signals an error: when the
referenced fill does not exist the UPDATE silently touches 0 rows and
returns with the table unchanged. -/
theorem C7_amended_silent_noop (db : TradesDB) (now tid : String)
    (mid : Option String) (h : ∀ r ∈ db.rows, r.trade_id ≠ tid) :
    mark_posted db now tid mid = db ∧ affected_rows db tid = 0 := by
  constructor
  · obtain ⟨rows⟩ := db
    rw [mark_posted]
    congr 1
    conv_rhs => rw [← List.map_id rows]
    refine List.map_congr_left ?_
    intro r hr
    have hne : (r.trade_id == tid) = false := by
      simpa using h r hr
    simp [hne]
  · rw [affected_rows]
    have : db.rows.filter (fun r => r.trade_id == tid) = [] := by
      rw [List.filter_eq_nil_iff]
      intro r hr
      simpa using h r hr
    rw [this]
    rfl

/-- C7 witness on the empty table. -/
theorem C7_witness :
    mark_posted ⟨[]⟩ "t9" "X" none = ⟨[]⟩ ∧ affected_rows ⟨[]⟩ "X" = 0 :=
  C7_amended_silent_noop ⟨[]⟩ "t9" "X" none (by simp)

/-- C8 counterexample: a second `mark_posted` call for the same fill
overwrites `posted_at` with the later timestamp, so `posted_at` is not
written only on the first transition. -/
theorem C8_counterexample :
    ((mark_posted ⟨[sampleRow]⟩ "t1" "T" none).rows.map (fun r => r.posted_at))
      = [some "t1"] ∧
    ((mark_posted (mark_posted ⟨[sampleRow]⟩ "t1" "T" none) "t2" "T" none).rows.map
        (fun r => r.posted_at))
      = [some "t2"] ∧
    (some "t1" : Option String) ≠ some "t2" := by
  refine ⟨?_, ?_, by simp⟩
  · rw [mark_posted]
    simp [sampleRow]
  · rw [mark_posted, mark_posted]
    simp [sampleRow]

/-- C8 (amended). Once a fill's `posted` flag is true it is never reset
to false by any further sequence of `store_trade_fill` / `mark_posted`
operations; but `posted_at` is overwritten by every `mark_posted` call
that touches the row, so a second call for the same fill replaces
`posted_at` with the later timestamp. -/
theorem C8_amended_posted_monotone :
    (∀ (db : TradesDB) (ops : List TOp) (r : TradeRow), r ∈ db.rows →
      r.posted = true →
      ∃ r' ∈ (runTOps db ops).rows, r'.trade_id = r.trade_id ∧ r'.posted = true) ∧
    (∀ (db : TradesDB) (now tid : String) (mid : Option String)
        (r' : TradeRow), r' ∈ (mark_posted db now tid mid).rows →
      r'.trade_id = tid → r'.posted_at = some now) := by
  constructor
  · intro db ops
    induction ops generalizing db with
    | nil => intro r hr hp; exact ⟨r, hr, rfl, hp⟩
    | cons op ops ih =>
      intro r hr hp
      have hstep : ∃ r₁ ∈ (runTOp db op).rows,
          r₁.trade_id = r.trade_id ∧ r₁.posted = true := by
        cases op with
        | store now t =>
          refine ⟨r, ?_, rfl, hp⟩
          rw [runTOp, store_trade_fill]
          split
          · exact hr
          · exact List.mem_append_left _ hr
        | mark now tid mid =>
          cases hbeq : (r.trade_id == tid) with
          | false =>
            refine ⟨r, ?_, rfl, hp⟩
            rw [runTOp, mark_posted]
            have hfix : (fun rr : TradeRow =>
                if rr.trade_id == tid then
                  { rr with
                      posted := true
                      posted_at := some now
                      discord_message_id := coalesce mid rr.discord_message_id }
                else rr) r = r := by
              simp [hbeq]
            exact hfix ▸ List.mem_map_of_mem _ hr
          | true =>
            refine ⟨{ r with
                posted := true
                posted_at := some now
                discord_message_id := coalesce mid r.discord_message_id },
              ?_, rfl, rfl⟩
            rw [runTOp, mark_posted]
            have hfix : (fun rr : TradeRow =>
                if rr.trade_id == tid then
                  { rr with
                      posted := true
                      posted_at := some now
                      discord_message_id := coalesce mid rr.discord_message_id }
                else rr) r
                = { r with
                    posted := true
                    posted_at := some now
                    discord_message_id := coalesce mid r.discord_message_id } := by
              simp [hbeq]
            exact hfix ▸ List.mem_map_of_mem _ hr
      obtain ⟨r₁, hr₁, hid₁, hp₁⟩ := hstep
      obtain ⟨r₂, hr₂, hid₂, hp₂⟩ := ih (runTOp db op) r₁ hr₁ hp₁
      exact ⟨r₂, hr₂, hid₂.trans hid₁, hp₂⟩
  · intro db now tid mid r' hr' hid
    obtain ⟨r, hr, rfl⟩ := List.mem_map.mp hr'
    by_cases h : (r.trade_id == tid) = true
    · rw [if_pos h]
    · rw [if_neg h] at hid
      exact absurd hid (by simpa using h)

/-- C8 witness: the posted flag survives a later mark operation on the
same table, and a concrete `mark_posted` sets `posted_at`. -/
theorem C8_witness :
    (∃ r' ∈ (runTOps ⟨[{ sampleRow with posted := true }]⟩
        [.mark "t5" "T" none]).rows,
      r'.trade_id = ({ sampleRow with posted := true } : TradeRow).trade_id ∧
        r'.posted = true) ∧
    ∀ r' ∈ (mark_posted ⟨[sampleRow]⟩ "t6" "T" none).rows,
      r'.trade_id = "T" → r'.posted_at = some "t6" := by
  constructor
  · exact C8_amended_posted_monotone.1 ⟨[{ sampleRow with posted := true }]⟩
      [.mark "t5" "T" none] { sampleRow with posted := true }
      (List.mem_singleton_self _) rfl
  · intro r' hr' hid
    exact C8_amended_posted_monotone.2 ⟨[sampleRow]⟩ "t6" "T" none r' hr' hid

/-- C9 counterexample: a fatal-category request error (an HTTPError from
`raise_for_status`, e.g. authentication failure or malformed request) is
a `RequestException`, so the wrapper retries it with full backoff
(sleeps 2, 4, 8 s) and finally raises the aggregated error — it is not
propagated immediately without retry. -/
theorem C9_counterexample :
    retry_with_backoff (fun _ => (ApiOutcome.fail .reqError : ApiOutcome Nat))
        MAX_RETRIES RETRY_DELAY_BASE
      = (.schwabApiError (some .reqError), [2, 4, 8]) ∧
    ([2, 4, 8] : List Nat) ≠ [] := by
  constructor
  · rfl
  · simp

/-- C9 (amended). With the defaults `max_retries = 3`, `base_delay = 2`:
the wrapper returns the wrapped call's result on first success with no
sleeping; a persistent network/timeout failure is retried after sleeps
`base_delay * 2^attempt` (2, 4, 8 s) and then raises one aggregated
error wrapping the last cause; a single transient failure is retried
after one 2 s sleep and the second attempt's result is returned; other
request-level failures (HTTP status errors such as auth failure or
malformed request) get the same retry treatment, and only exceptions
outside the requests hierarchy propagate immediately. -/
theorem C9_amended_retry_behavior :
    (∀ (f : Nat → ApiOutcome Nat) (a : Nat), f 0 = .success a →
      retry_with_backoff f MAX_RETRIES RETRY_DELAY_BASE = (.ok a, [])) ∧
    (∀ (f : Nat → ApiOutcome Nat), (∀ i, f i = .fail .connError) →
      retry_with_backoff f MAX_RETRIES RETRY_DELAY_BASE
        = (.schwabApiError (some .connError), [2, 4, 8])) ∧
    (∀ (f : Nat → ApiOutcome Nat) (a : Nat),
      f 0 = .fail .connError → f 1 = .success a →
      retry_with_backoff f MAX_RETRIES RETRY_DELAY_BASE = (.ok a, [2])) ∧
    (∀ (f : Nat → ApiOutcome Nat), (∀ i, f i = .fail .reqError) →
      retry_with_backoff f MAX_RETRIES RETRY_DELAY_BASE
        = (.schwabApiError (some .reqError), [2, 4, 8])) ∧
    (∀ (f : Nat → ApiOutcome Nat), f 0 = .fail .otherError →
      retry_with_backoff f MAX_RETRIES RETRY_DELAY_BASE
        = (.uncaught .otherError, [])) := by
  have hrange : List.range (MAX_RETRIES + 1) = [0, 1, 2, 3] := rfl
  refine ⟨?_, ?_, ?_, ?_, ?_⟩
  · intro f a h0
    rw [retry_with_backoff, hrange, retryGo, h0]
  · intro f h
    rw [retry_with_backoff, hrange, retryGo, h 0]
    norm_num [MAX_RETRIES, RETRY_DELAY_BASE, retryGo, h 1, h 2, h 3]
  · intro f a h0 h1
    rw [retry_with_backoff, hrange, retryGo, h0]
    norm_num [MAX_RETRIES, RETRY_DELAY_BASE, retryGo, h1]
  · intro f h
    rw [retry_with_backoff, hrange, retryGo, h 0]
    norm_num [MAX_RETRIES, RETRY_DELAY_BASE, retryGo, h 1, h 2, h 3]
  · intro f h0
    rw [retry_with_backoff, hrange, retryGo, h0]

/-- C9 witness on concrete outcome streams. -/
theorem C9_witness :
    retry_with_backoff (fun _ => (ApiOutcome.success 7 : ApiOutcome Nat))
        MAX_RETRIES RETRY_DELAY_BASE = (.ok 7, []) ∧
    retry_with_backoff (fun _ => (ApiOutcome.fail .connError : ApiOutcome Nat))
        MAX_RETRIES RETRY_DELAY_BASE = (.schwabApiError (some .connError), [2, 4, 8]) ∧
    retry_with_backoff
        (fun i => if i = 0 then (ApiOutcome.fail .connError : ApiOutcome Nat)
          else .success 7) MAX_RETRIES RETRY_DELAY_BASE = (.ok 7, [2]) ∧
    retry_with_backoff (fun _ => (ApiOutcome.fail .otherError : ApiOutcome Nat))
        MAX_RETRIES RETRY_DELAY_BASE = (.uncaught .otherError, []) :=
  ⟨C9_amended_retry_behavior.1 _ 7 rfl,
   C9_amended_retry_behavior.2.1 _ (fun _ => rfl),
   C9_amended_retry_behavior.2.2.1 _ 7 rfl rfl,
   C9_amended_retry_behavior.2.2.2.2 _ rfl⟩
